import Mathlib

/-!
Verification development for the domain-resolution router in
`src/Resolution.ts` of this repository.

The router is shallowly embedded: JavaScript strings are lists of code
points (`JStr`), `async` methods that may throw become functions into
`Except JSError _`, the `NamingService` backend classes (whose sources are
outside `src/`) are records of functions, and the `Resolution` class is a
record of its fields together with Lean functions mirroring its methods
line by line.
-/

/-- JavaScript strings, modelled as lists of code points. -/
abbrev JStr := List Nat

/-- Whitespace predicate used by `String.prototype.trim` on the character
classes that occur in domain strings (space, tab, LF, VT, FF, CR). -/
def jsIsWs (c : Nat) : Bool :=
  c == 32 || c == 9 || c == 10 || c == 11 || c == 12 || c == 13

/-- Case-lowering of one code point, as `String.prototype.toLowerCase`
acts on the ASCII range (the range relevant to domain labels). -/
def jsLowerChar (c : Nat) : Nat :=
  if 65 ≤ c ∧ c ≤ 90 then c + 32 else c

/-- JavaScript `String.prototype.toLowerCase`. -/
def jsToLower (s : JStr) : JStr := s.map jsLowerChar

/-- JavaScript `String.prototype.trim`: drop whitespace from both ends. -/
def jsTrim (s : JStr) : JStr :=
  List.rdropWhile jsIsWs (List.dropWhile jsIsWs s)

/-- Lines 423-425 of `Resolution.ts`: `prepareDomain(domain)` returns
`domain ? domain.trim().toLowerCase() : ''` (the only falsy string is
the empty string). -/
def prepareDomain (domain : JStr) : JStr :=
  if domain.isEmpty then [] else jsToLower (jsTrim domain)

theorem jsLowerChar_idem (c : Nat) : jsLowerChar (jsLowerChar c) = jsLowerChar c := by
  by_cases h : 65 ≤ c ∧ c ≤ 90
  · have h2 : ¬ (65 ≤ c + 32 ∧ c + 32 ≤ 90) := by omega
    simp [jsLowerChar, h, h2]
    omega
  · simp [jsLowerChar, h]

theorem jsIsWs_lowerChar (c : Nat) : jsIsWs (jsLowerChar c) = jsIsWs c := by
  by_cases h : 65 ≤ c ∧ c ≤ 90
  · have h1 : jsIsWs (c + 32) = false := by
      simp only [jsIsWs, Bool.or_eq_false_iff, beq_eq_false_iff_ne, ne_eq]
      omega
    have h2 : jsIsWs c = false := by
      simp only [jsIsWs, Bool.or_eq_false_iff, beq_eq_false_iff_ne, ne_eq]
      omega
    simp [jsLowerChar, h, h1, h2]
  · simp [jsLowerChar, h]

theorem jsToLower_idem (s : JStr) : jsToLower (jsToLower s) = jsToLower s := by
  simp only [jsToLower, List.map_map]
  exact List.map_congr_left (fun c _ => jsLowerChar_idem c)

/-- Dropping leading whitespace commutes with lowercasing, because
lowercasing preserves whitespace-ness of every character. -/
theorem dropWhile_ws_map_lower (s : JStr) :
    List.dropWhile jsIsWs (s.map jsLowerChar) = (List.dropWhile jsIsWs s).map jsLowerChar := by
  rw [List.dropWhile_map]
  have h : (jsIsWs ∘ jsLowerChar) = jsIsWs := funext jsIsWs_lowerChar
  rw [h]

theorem rdropWhile_ws_map_lower (s : JStr) :
    List.rdropWhile jsIsWs (s.map jsLowerChar) = (List.rdropWhile jsIsWs s).map jsLowerChar := by
  unfold List.rdropWhile
  rw [← List.map_reverse, dropWhile_ws_map_lower, List.map_reverse]

theorem jsTrim_jsToLower (s : JStr) : jsTrim (jsToLower s) = jsToLower (jsTrim s) := by
  unfold jsTrim jsToLower
  rw [dropWhile_ws_map_lower, rdropWhile_ws_map_lower]

/-- A prefix of a list with no leading `p`-element also has no leading
`p`-element. -/
theorem dropWhile_eq_self_of_prefix (p : Nat → Bool) (x y : JStr)
    (hpre : y <+: x) (hx : List.dropWhile p x = x) :
    List.dropWhile p y = y := by
  cases y with
  | nil => rfl
  | cons b t =>
    obtain ⟨u, hu⟩ := hpre
    cases x with
    | nil => simp at hu
    | cons a s =>
      have hb : b = a := by
        have := congrArg (fun l => l.head?) hu
        simpa using this
      subst hb
      have hpa : p b = false := by
        by_contra hcontra
        have hpb : p b = true := by
          cases hpb : p b with
          | false => exact absurd hpb hcontra
          | true => rfl
        rw [List.dropWhile_cons_of_pos hpb] at hx
        have hlen := congrArg List.length hx
        have hle : (List.dropWhile p s).length ≤ s.length :=
          (List.dropWhile_suffix p).sublist.length_le
        simp at hlen
        omega
      rw [List.dropWhile_cons_of_neg (by simp [hpa])]

theorem jsTrim_idem (s : JStr) : jsTrim (jsTrim s) = jsTrim s := by
  unfold jsTrim
  have h1 : List.dropWhile jsIsWs (List.rdropWhile jsIsWs (List.dropWhile jsIsWs s)) =
      List.rdropWhile jsIsWs (List.dropWhile jsIsWs s) := by
    apply dropWhile_eq_self_of_prefix jsIsWs (List.dropWhile jsIsWs s)
    · exact List.rdropWhile_prefix _ _
    · exact List.dropWhile_idempotent _ _
  rw [h1, List.rdropWhile_idempotent]

/-- Lowercasing never produces the empty string from a non-empty one, and
trimming a trimmed-and-lowered string is the identity; together these give
idempotence of `prepareDomain`. -/
theorem prepareDomain_idem (d : JStr) :
    prepareDomain (prepareDomain d) = prepareDomain d := by
  cases hd : d.isEmpty with
  | true => simp [prepareDomain, hd]
  | false =>
    have h1 : prepareDomain d = jsToLower (jsTrim d) := by simp [prepareDomain, hd]
    rw [h1]
    cases he : (jsToLower (jsTrim d)).isEmpty with
    | true =>
      have hnil : jsToLower (jsTrim d) = [] := by
        cases hx : jsToLower (jsTrim d) with
        | nil => rfl
        | cons a t => rw [hx] at he; simp at he
      rw [hnil]
      simp [prepareDomain]
    | false =>
      simp only [prepareDomain, he, Bool.false_eq_true, if_false]
      rw [jsTrim_jsToLower, jsTrim_idem, jsToLower_idem]

/-- Identity tags of the naming-service backends. Modelled from the spec:
`NamingServiceName` lives in `src/types.ts`, which is not part of the
sources given; the spec fixes a small closed set of backend identities
(ENS-like, ZNS-like, CNS-like, remote API). -/
inductive NamingServiceName where
  | ENS
  | ZNS
  | CNS
  | API
deriving DecidableEq, Repr

instance : BEq NamingServiceName := instBEqOfDecidableEq

/-- Error codes of the resolution-error taxonomy. Modelled from the spec:
`ResolutionErrorCode` lives in `src/errors/resolutionError.ts`, which is not
part of the sources given; the router itself constructs `UnsupportedDomain`
and `NamingServiceDown`, and backends may raise further taxonomy codes
(record missing, network down, ...) represented by `backendCode`. -/
inductive ResolutionErrorCode where
  | UnsupportedDomain
  | NamingServiceDown
  | backendCode (n : Nat)
deriving DecidableEq, Repr

/-- Context object attached to a `ResolutionError` (`{domain}` or
`{method}` at the throw sites in `Resolution.ts`). -/
structure ErrorOptions where
  domain : Option JStr
  method : Option NamingServiceName
deriving DecidableEq, Repr

/-- A thrown JavaScript error: either an error of the resolution-error
taxonomy (`error instanceof ResolutionError`), or any other error
(`otherError`), which the taxonomy check does not match. -/
inductive JSError where
  | resolutionError (code : ResolutionErrorCode) (options : ErrorOptions)
  | otherError (n : Nat)
deriving DecidableEq, Repr

/-- Record bundle returned by `resolve`. Modelled from the spec:
`ResolutionResponse` lives in `src/types.ts`, which is not part of the
sources given; only its identity matters to the router, which compares
nothing inside it and only substitutes the unclaimed sentinel for `null`. -/
structure ResolutionResponse where
  addresses : List (JStr × JStr)
  meta : List (JStr × JStr)
deriving DecidableEq, Repr

/-- Modelled from the spec: the well-known "domain unclaimed" sentinel
value (`UnclaimedDomainResponse` in `src/types.ts`). -/
def UnclaimedDomainResponse : ResolutionResponse :=
  { addresses := [], meta := [] }

/-- The `NamingService` capability contract implemented by every backend
(`src/namingService.ts` and the backend classes are not part of the
sources given; the operation set is the one the router consumes, per the
spec's capability contract). Async operations that may throw are functions
into `Except JSError _`. -/
structure NamingService where
  name : NamingServiceName
  isSupportedDomain : JStr → Bool
  isSupportedNetwork : Bool
  resolve : JStr → Except JSError (Option ResolutionResponse)
  address : JStr → JStr → Except JSError JStr
  owner : JStr → Except JSError (Option JStr)
  resolver : JStr → Except JSError JStr
  record : JStr → JStr → Except JSError JStr
  getAllKeys : JStr → Except JSError (List JStr)
  chatId : JStr → Except JSError JStr
  chatpk : JStr → Except JSError JStr
  ipfsHash : JStr → Except JSError JStr
  httpUrl : JStr → Except JSError JStr
  email : JStr → Except JSError JStr
  namehash : JStr → JStr
  childhash : JStr → JStr → JStr
  serviceName : JStr → NamingServiceName
  reverse : JStr → JStr → Except JSError (Option JStr)

/-- Canonical per-backend source descriptor `SourceDefinition`
(`{url?, provider?, network?}`), with providers drawn from an arbitrary
type `α`. -/
structure SourceDefinition (α : Type) where
  url : Option JStr
  provider : Option α
  network : Option JStr

/-- A loosely-typed JavaScript configuration value as it reaches
`normalizeSource`: the `NamingServiceSource` union (absent / boolean /
string / object) plus the values outside it that a caller could pass
(`null`, whose `typeof` is `'object'`, and numbers as a representative of
types outside the union). -/
inductive JSValue (α : Type) where
  | undef
  | null
  | bool (b : Bool)
  | str (s : JStr)
  | obj (o : SourceDefinition α)
  | num (x : Int)

/-- The configuration error thrown by the constructor's normalizer:
`throw new Error('Unsupported configuration')` (a plain `Error`, not a
`ResolutionError`). -/
inductive ConfigError where
  | unsupportedConfiguration
deriving DecidableEq, Repr

/-- Lines 427-443 of `Resolution.ts`, `normalizeSource(source, provider)`:
a `switch (typeof source)` with cases `'undefined'` (descriptor carrying
the inherited provider), `'boolean'` (`true` like absent, `false` the
disabled sentinel, here `none`), `'string'` (`{url: source}`), and
`'object'` (`{provider, ...source}`, fields present in the object
overriding; `typeof null` is `'object'` and spreading `null` contributes
no fields). Any other `typeof` (e.g. `'number'`) falls through the switch
to `throw new Error('Unsupported configuration')`. -/
def normalizeSource {α : Type} (source : JSValue α) (provider : Option α) :
    Except ConfigError (Option (SourceDefinition α)) :=
  match source with
  | .undef => .ok (some { url := none, provider := provider, network := none })
  | .bool b =>
      if b then .ok (some { url := none, provider := provider, network := none })
      else .ok none
  | .str s => .ok (some { url := some s, provider := none, network := none })
  | .obj o =>
      .ok (some { url := o.url
                  provider := match o.provider with
                    | some q => some q
                    | none => provider
                  network := o.network })
  | .null => .ok (some { url := none, provider := provider, network := none })
  | .num _ => .error ConfigError.unsupportedConfiguration

/-- The `blockchain` field of the `Blockchain` configuration object:
per-backend sources `ens`, `zns`, `cns` and the deprecated shared
`web3Provider`. -/
structure BlockchainConfig (α : Type) where
  ens : JSValue α
  zns : JSValue α
  cns : JSValue α
  web3Provider : Option α

/-- The `blockchain` constructor option: `Blockchain | boolean`. -/
inductive BlockchainOption (α : Type) where
  | bool (b : Bool)
  | config (c : BlockchainConfig α)

/-- JavaScript truthiness of the `blockchain` option: a boolean is its own
truth value, and every object is truthy. -/
def BlockchainOption.truthy {α : Type} : BlockchainOption α → Bool
  | .bool b => b
  | .config _ => true

/-- Constructor options `{blockchain = true, api = DefaultAPI}` with the
API configuration drawn from an arbitrary type `β` (its content is opaque
to the router). -/
structure ResolutionOptions (α β : Type) where
  blockchain : BlockchainOption α
  api : β

/-- The immutable state of a `Resolution` instance: the `blockchain` flag
and the four optional backend fields. -/
structure Resolution where
  blockchain : Bool
  ens : Option NamingService
  zns : Option NamingService
  cns : Option NamingService
  api : Option NamingService

namespace Resolution

/-- Lines 57-88 of `Resolution.ts`, the constructor. The backend class
constructors `Ens`, `Zns`, `Cns`, `Udapi` are outside the given sources and
are passed in as functions `mkEns`, `mkZns`, `mkCns`, `mkApi`. When the
`blockchain` option is truthy it is replaced by `{}` if it was `true`,
each of the three sources is normalized (the deprecated `web3Provider`
inherited by ENS and CNS only), and a backend is constructed exactly when
its normalized source is truthy (not the `false` sentinel); otherwise the
single API backend is constructed. A normalizer throw aborts construction. -/
def construct {α β : Type}
    (mkEns mkZns mkCns : SourceDefinition α → NamingService)
    (mkApi : β → NamingService)
    (opts : ResolutionOptions α β) : Except ConfigError Resolution :=
  if opts.blockchain.truthy then
    let cfg : BlockchainConfig α :=
      match opts.blockchain with
      | .bool _ => { ens := .undef, zns := .undef, cns := .undef, web3Provider := none }
      | .config c => c
    do
      let ens ← normalizeSource cfg.ens cfg.web3Provider
      let zns ← normalizeSource cfg.zns none
      let cns ← normalizeSource cfg.cns cfg.web3Provider
      pure { blockchain := true
             ens := ens.map mkEns
             zns := zns.map mkZns
             cns := cns.map mkCns
             api := none }
  else
    pure { blockchain := false
           ens := none
           zns := none
           cns := none
           api := some (mkApi opts.api) }

/-- Lines 398-402 of `Resolution.ts`, `getResolutionMethods()`:
`this.blockchain ? [ens, zns, cns] : [api]`, filtered by truthiness. -/
def getResolutionMethods (r : Resolution) : List NamingService :=
  (if r.blockchain then [r.ens, r.zns, r.cns] else [r.api]).filterMap id

/-- Lines 391-396 of `Resolution.ts`, `getNamingMethod(domain)`: prepare the
domain, then return the first configured backend whose
`isSupportedDomain` predicate accepts it. -/
def getNamingMethod (r : Resolution) (domain : JStr) : Option NamingService :=
  let domain := prepareDomain domain
  r.getResolutionMethods.find? (fun method => method.isSupportedDomain domain)

/-- Lines 404-412 of `Resolution.ts`, `getNamingMethodOrThrow(domain)`:
like `getNamingMethod` but throwing
`ResolutionError(UnsupportedDomain, {domain})` when no backend matched. -/
def getNamingMethodOrThrow (r : Resolution) (domain : JStr) :
    Except JSError NamingService :=
  let domain := prepareDomain domain
  match r.getNamingMethod domain with
  | none =>
      .error (.resolutionError .UnsupportedDomain { domain := some domain, method := none })
  | some method => .ok method

/-- Lines 414-421 of `Resolution.ts`, `findNamingService(name)`: the first
configured backend with the given identity tag, throwing
`ResolutionError(NamingServiceDown, {method})` when there is none. -/
def findNamingService (r : Resolution) (name : NamingServiceName) :
    Except JSError NamingService :=
  match r.getResolutionMethods.find? (fun m => m.name == name) with
  | none =>
      .error (.resolutionError .NamingServiceDown { domain := none, method := some name })
  | some service => .ok service

/-- Lines 153-158 of `Resolution.ts`, `resolve(domain)`: prepare, dispatch,
and replace a `null` backend result by `UnclaimedDomainResponse`. -/
def resolve (r : Resolution) (domain : JStr) : Except JSError ResolutionResponse := do
  let domain := prepareDomain domain
  let method ← r.getNamingMethodOrThrow domain
  let result ← method.resolve domain
  pure (match result with
    | some value => value
    | none => UnclaimedDomainResponse)

/-- Lines 263-270 of `Resolution.ts`, `addressOrThrow(domain, currencyTicker)`. -/
def addressOrThrow (r : Resolution) (domain currencyTicker : JStr) :
    Except JSError JStr := do
  let domain := prepareDomain domain
  let method ← r.getNamingMethodOrThrow domain
  method.address domain currencyTicker

/-- Lines 167-181 of `Resolution.ts`, `address(domain, currencyTicker)`:
prepare, call `addressOrThrow`, and catch exactly the errors with
`error instanceof ResolutionError`, converting them to `null`; any other
error is rethrown. -/
def address (r : Resolution) (domain currencyTicker : JStr) :
    Except JSError (Option JStr) :=
  let domain := prepareDomain domain
  match r.addressOrThrow domain currencyTicker with
  | .ok value => .ok (some value)
  | .error (.resolutionError _ _) => .ok none
  | .error e => .error e

/-- Lines 189-193 of `Resolution.ts`, `chatId(domain)`. -/
def chatId (r : Resolution) (domain : JStr) : Except JSError JStr := do
  let domain := prepareDomain domain
  let method ← r.getNamingMethodOrThrow domain
  method.chatId domain

/-- Lines 201-205 of `Resolution.ts`, `chatPk(domain)`. -/
def chatPk (r : Resolution) (domain : JStr) : Except JSError JStr := do
  let domain := prepareDomain domain
  let method ← r.getNamingMethodOrThrow domain
  method.chatpk domain

/-- Lines 212-215 of `Resolution.ts`, `ipfsHash(domain)`. -/
def ipfsHash (r : Resolution) (domain : JStr) : Except JSError JStr := do
  let domain := prepareDomain domain
  (← r.getNamingMethodOrThrow domain).ipfsHash domain

/-- Lines 221-224 of `Resolution.ts`, `httpUrl(domain)`. -/
def httpUrl (r : Resolution) (domain : JStr) : Except JSError JStr := do
  let domain := prepareDomain domain
  (← r.getNamingMethodOrThrow domain).httpUrl domain

/-- The fixed record key `'ipfs.redirect_domain.value'`, as code points. -/
def ipfsRedirectKey : JStr :=
  [105, 112, 102, 115, 46, 114, 101, 100, 105, 114, 101, 99, 116, 95,
   100, 111, 109, 97, 105, 110, 46, 118, 97, 108, 117, 101]

/-- Lines 233-241 of `Resolution.ts`, `ipfsRedirect(domain)` (deprecated):
unlike every other public entry point it does NOT reassign
`domain = this.prepareDomain(domain)`; it selects the backend through
`getNamingMethodOrThrow` (which prepares its own copy internally) but
forwards the raw, unprepared `domain` to the backend's `record` call. -/
def ipfsRedirect (r : Resolution) (domain : JStr) : Except JSError JStr := do
  let method ← r.getNamingMethodOrThrow domain
  method.record domain ipfsRedirectKey

/-- Lines 249-252 of `Resolution.ts`, `email(domain)`. -/
def email (r : Resolution) (domain : JStr) : Except JSError JStr := do
  let domain := prepareDomain domain
  (← r.getNamingMethodOrThrow domain).email domain

/-- Lines 276-279 of `Resolution.ts`, `resolver(domain)`. -/
def resolver (r : Resolution) (domain : JStr) : Except JSError JStr := do
  let domain := prepareDomain domain
  (← r.getNamingMethodOrThrow domain).resolver domain

/-- Lines 285-289 of `Resolution.ts`, `owner(domain)`: a falsy backend result
is normalized to `null`. -/
def owner (r : Resolution) (domain : JStr) : Except JSError (Option JStr) := do
  let domain := prepareDomain domain
  let method ← r.getNamingMethodOrThrow domain
  let result ← method.owner domain
  pure result

/-- Lines 296-300 of `Resolution.ts`, `record(domain, recordKey)`. -/
def record (r : Resolution) (domain recordKey : JStr) : Except JSError JStr := do
  let domain := prepareDomain domain
  let method ← r.getNamingMethodOrThrow domain
  method.record domain recordKey

/-- Lines 309-314 of `Resolution.ts`, `reverse(address, currencyTicker)`:
targets the ENS backend by identity through `findNamingService`, with no
domain-based selection at all. -/
def reverse (r : Resolution) (address currencyTicker : JStr) :
    Except JSError (Option JStr) := do
  let service ← r.findNamingService NamingServiceName.ENS
  service.reverse address currencyTicker

/-- Lines 322-325 of `Resolution.ts`, `namehash(domain)`. -/
def namehash (r : Resolution) (domain : JStr) : Except JSError JStr := do
  let domain := prepareDomain domain
  let method ← r.getNamingMethodOrThrow domain
  pure (method.namehash domain)

/-- Lines 333-339 of `Resolution.ts`, `childhash(parent, label, method)`. -/
def childhash (r : Resolution) (parent label : JStr) (method : NamingServiceName) :
    Except JSError JStr := do
  let service ← r.findNamingService method
  pure (service.childhash parent label)

/-- Lines 346-349 of `Resolution.ts`, `isValidHash(domain, hash)`:
`this.namehash(domain) === hash`. -/
def isValidHash (r : Resolution) (domain hash : JStr) : Except JSError Bool := do
  let domain := prepareDomain domain
  let nh ← r.namehash domain
  pure (nh == hash)

/-- Lines 357-360 of `Resolution.ts`, `isSupportedDomain(domain)`:
`!!this.getNamingMethod(domain)`. -/
def isSupportedDomain (r : Resolution) (domain : JStr) : Bool :=
  let domain := prepareDomain domain
  (r.getNamingMethod domain).isSome

/-- Lines 366-370 of `Resolution.ts`, `isSupportedDomainInNetwork(domain)`. -/
def isSupportedDomainInNetwork (r : Resolution) (domain : JStr) : Bool :=
  let domain := prepareDomain domain
  match r.getNamingMethod domain with
  | none => false
  | some method => method.isSupportedNetwork

/-- Lines 376-379 of `Resolution.ts`, `serviceName(domain)`. -/
def serviceName (r : Resolution) (domain : JStr) : Except JSError NamingServiceName := do
  let domain := prepareDomain domain
  let method ← r.getNamingMethodOrThrow domain
  pure (method.serviceName domain)

/-- Lines 386-389 of `Resolution.ts`, `getAllKeys(domain)`. -/
def getAllKeys (r : Resolution) (domain : JStr) : Except JSError (List JStr) := do
  let domain := prepareDomain domain
  let method ← r.getNamingMethodOrThrow domain
  method.getAllKeys domain

end Resolution

/-- A concrete backend for witness evaluations: carries the ENS identity
tag, accepts every domain, and echoes the forwarded domain back from each
record-returning operation (so the forwarded argument is observable). -/
def echoBackend : NamingService :=
  { name := .ENS
    isSupportedDomain := fun _ => true
    isSupportedNetwork := true
    resolve := fun _ => .ok none
    address := fun d _ => .ok d
    owner := fun _ => .ok none
    resolver := fun d => .ok d
    record := fun d _ => .ok d
    getAllKeys := fun _ => .ok []
    chatId := fun d => .ok d
    chatpk := fun d => .ok d
    ipfsHash := fun d => .ok d
    httpUrl := fun d => .ok d
    email := fun d => .ok d
    namehash := fun d => 0 :: d
    childhash := fun p l => p ++ l
    serviceName := fun _ => .ENS
    reverse := fun _ _ => .ok none }

/-- The echo backend with the CNS identity tag. -/
def cnsEchoBackend : NamingService := { echoBackend with name := .CNS }

/-- The echo backend with the API identity tag (the remote-API backend's
tag is distinct from ENS per the closed identity set). -/
def apiEchoBackend : NamingService := { echoBackend with name := .API }

/-- A blockchain-mode instance with an ENS-like and a CNS-like backend
that both claim every domain. -/
def testResolution : Resolution :=
  { blockchain := true
    ens := some echoBackend
    zns := none
    cns := some cnsEchoBackend
    api := none }

/-- An API-mode instance holding only the API backend. -/
def apiResolution : Resolution :=
  { blockchain := false
    ens := none
    zns := none
    cns := none
    api := some apiEchoBackend }

/-- The code points of the raw domain string `' BRAD.ZIL '` (surrounding
spaces, uppercase letters). -/
def rawTestDomain : JStr := [32, 66, 82, 65, 68, 46, 90, 73, 76, 32]

theorem getNamingMethod_prepare (r : Resolution) (d : JStr) :
    r.getNamingMethod (prepareDomain d) = r.getNamingMethod d := by
  unfold Resolution.getNamingMethod
  rw [prepareDomain_idem]

theorem getNamingMethodOrThrow_eq (r : Resolution) (d : JStr) :
    r.getNamingMethodOrThrow d =
      match r.getNamingMethod d with
      | none => .error (.resolutionError .UnsupportedDomain
          { domain := some (prepareDomain d), method := none })
      | some method => .ok method := by
  have h : r.getNamingMethodOrThrow d =
      match r.getNamingMethod (prepareDomain d) with
      | none => .error (.resolutionError .UnsupportedDomain
          { domain := some (prepareDomain d), method := none })
      | some method => .ok method := rfl
  rw [h, getNamingMethod_prepare]

theorem getNamingMethodOrThrow_prepare (r : Resolution) (d : JStr) :
    r.getNamingMethodOrThrow (prepareDomain d) = r.getNamingMethodOrThrow d := by
  rw [getNamingMethodOrThrow_eq, getNamingMethodOrThrow_eq,
    getNamingMethod_prepare, prepareDomain_idem]

theorem addressOrThrow_prepare (r : Resolution) (d t : JStr) :
    r.addressOrThrow (prepareDomain d) t = r.addressOrThrow d t := by
  unfold Resolution.addressOrThrow
  simp only [prepareDomain_idem]

theorem getResolutionMethods_blockchain (r : Resolution) (hb : r.blockchain = true) :
    r.getResolutionMethods = [r.ens, r.zns, r.cns].filterMap id := by
  unfold Resolution.getResolutionMethods
  rw [hb]
  simp

theorem getResolutionMethods_api (r : Resolution) (hb : r.blockchain = false) :
    r.getResolutionMethods = [r.api].filterMap id := by
  unfold Resolution.getResolutionMethods
  rw [hb]
  simp

theorem normalizeSource_ok_or {α : Type} (s : JSValue α) (p : Option α) :
    (∃ v, normalizeSource s p = .ok v) ∨
      normalizeSource s p = .error ConfigError.unsupportedConfiguration := by
  cases s with
  | undef => exact .inl ⟨_, rfl⟩
  | null => exact .inl ⟨_, rfl⟩
  | bool b =>
      cases b with
      | false => exact .inl ⟨none, rfl⟩
      | true => exact .inl ⟨_, rfl⟩
  | str s => exact .inl ⟨_, rfl⟩
  | obj o => exact .inl ⟨_, rfl⟩
  | num x => exact .inr rfl

theorem construct_config_eq {α β : Type}
    (mkEns mkZns mkCns : SourceDefinition α → NamingService) (mkApi : β → NamingService)
    (cfg : BlockchainConfig α) (apiCfg : β) :
    Resolution.construct mkEns mkZns mkCns mkApi ⟨.config cfg, apiCfg⟩ =
      (normalizeSource cfg.ens cfg.web3Provider).bind (fun ens =>
        (normalizeSource cfg.zns none).bind (fun zns =>
          (normalizeSource cfg.cns cfg.web3Provider).bind (fun cns =>
            .ok { blockchain := true
                  ens := ens.map mkEns
                  zns := zns.map mkZns
                  cns := cns.map mkCns
                  api := none }))) := rfl

theorem construct_bool_true_eq {α β : Type}
    (mkEns mkZns mkCns : SourceDefinition α → NamingService) (mkApi : β → NamingService)
    (apiCfg : β) :
    Resolution.construct mkEns mkZns mkCns mkApi ⟨.bool true, apiCfg⟩ =
      .ok { blockchain := true
            ens := some (mkEns { url := none, provider := none, network := none })
            zns := some (mkZns { url := none, provider := none, network := none })
            cns := some (mkCns { url := none, provider := none, network := none })
            api := none } := rfl

theorem construct_bool_false_eq {α β : Type}
    (mkEns mkZns mkCns : SourceDefinition α → NamingService) (mkApi : β → NamingService)
    (apiCfg : β) :
    Resolution.construct mkEns mkZns mkCns mkApi ⟨.bool false, apiCfg⟩ =
      .ok { blockchain := false
            ens := none
            zns := none
            cns := none
            api := some (mkApi apiCfg) } := rfl

theorem resolve_eq (r : Resolution) (d : JStr) :
    r.resolve d =
      match r.getNamingMethod d with
      | none => .error (.resolutionError .UnsupportedDomain
          { domain := some (prepareDomain d), method := none })
      | some m => (m.resolve (prepareDomain d)).bind (fun result =>
          .ok (match result with
            | some value => value
            | none => UnclaimedDomainResponse)) := by
  have h : r.resolve d =
      (r.getNamingMethodOrThrow (prepareDomain d)).bind (fun method =>
        (method.resolve (prepareDomain d)).bind (fun result =>
          .ok (match result with
            | some value => value
            | none => UnclaimedDomainResponse))) := rfl
  rw [h, getNamingMethodOrThrow_prepare, getNamingMethodOrThrow_eq]
  cases r.getNamingMethod d with
  | none => rfl
  | some m => rfl

theorem namehash_eq (r : Resolution) (d : JStr) :
    r.namehash d =
      match r.getNamingMethod d with
      | none => .error (.resolutionError .UnsupportedDomain
          { domain := some (prepareDomain d), method := none })
      | some m => .ok (m.namehash (prepareDomain d)) := by
  have h : r.namehash d =
      (r.getNamingMethodOrThrow (prepareDomain d)).bind (fun method =>
        .ok (method.namehash (prepareDomain d))) := rfl
  rw [h, getNamingMethodOrThrow_prepare, getNamingMethodOrThrow_eq]
  cases r.getNamingMethod d with
  | none => rfl
  | some m => rfl

theorem namehash_prepare (r : Resolution) (d : JStr) :
    r.namehash (prepareDomain d) = r.namehash d := by
  rw [namehash_eq, namehash_eq, getNamingMethod_prepare, prepareDomain_idem]

theorem isValidHash_eq (r : Resolution) (d hash : JStr) :
    r.isValidHash d hash = (r.namehash d).bind (fun nh => .ok (nh == hash)) := by
  have h : r.isValidHash d hash =
      (r.namehash (prepareDomain d)).bind (fun nh => .ok (nh == hash)) := rfl
  rw [h, namehash_prepare]

theorem except_bind_ok {ε α β : Type} (v : α) (f : α → Except ε β) :
    (Except.ok v : Except ε α).bind f = f v := rfl

theorem except_bind_error {ε α β : Type} (e : ε) (f : α → Except ε β) :
    (Except.error e : Except ε α).bind f = .error e := rfl

theorem find?_filterMap_cons_some {l : List (Option NamingService)}
    {e : NamingService} {p : NamingService → Bool} (hp : p e = true) :
    ((some e :: l).filterMap id).find? p = some e := by
  simp [List.filterMap_cons, List.find?_cons, hp]

theorem find?_filterMap_cons_skip {l : List (Option NamingService)}
    {e : NamingService} {p : NamingService → Bool} (hp : p e = false) :
    ((some e :: l).filterMap id).find? p = (l.filterMap id).find? p := by
  simp [List.filterMap_cons, List.find?_cons, hp]

theorem find?_filterMap_cons_none {l : List (Option NamingService)}
    {p : NamingService → Bool} :
    ((none :: l).filterMap id).find? p = (l.filterMap id).find? p := by
  simp [List.filterMap_cons]

theorem isSupportedDomain_eq (r : Resolution) (d : JStr) :
    r.isSupportedDomain d = (r.getNamingMethod d).isSome := by
  have h : r.isSupportedDomain d = (r.getNamingMethod (prepareDomain d)).isSome := rfl
  rw [h, getNamingMethod_prepare]

/-- C9: domain canonicalization is idempotent: `prepareDomain` (trim then
lowercase, with falsy input mapped to the empty string) returns the same
result when applied twice, and maps the empty string to itself. -/
theorem prepareDomain_idempotent (d : JStr) :
    prepareDomain (prepareDomain d) = prepareDomain d ∧ prepareDomain [] = [] :=
  ⟨prepareDomain_idem d, rfl⟩

/-- C1: for every instance, domain and currency ticker, `address` returns
`null` exactly when `addressOrThrow` throws an error of the
resolution-error taxonomy (a `ResolutionError`), returns the same non-null
string as `addressOrThrow` otherwise, and lets any error outside the
taxonomy propagate unchanged to the caller. -/
theorem address_null_iff_taxonomy_throw (r : Resolution) (d t : JStr) :
    (r.address d t = .ok none ↔
      ∃ code options, r.addressOrThrow d t = .error (.resolutionError code options)) ∧
    (∀ v : JStr, r.address d t = .ok (some v) ↔ r.addressOrThrow d t = .ok v) ∧
    (∀ e : JSError, r.address d t = .error e ↔
      r.addressOrThrow d t = .error e ∧
        ∀ code options, e ≠ .resolutionError code options) := by
  have haddr : r.address d t =
      match r.addressOrThrow (prepareDomain d) t with
      | .ok value => .ok (some value)
      | .error (.resolutionError _ _) => .ok none
      | .error e => .error e := rfl
  have key_ok : ∀ v, r.addressOrThrow d t = .ok v →
      r.address d t = .ok (some v) := by
    intro v hv
    rw [haddr, addressOrThrow_prepare, hv]
  have key_res : ∀ c o, r.addressOrThrow d t = .error (.resolutionError c o) →
      r.address d t = .ok none := by
    intro c o hv
    rw [haddr, addressOrThrow_prepare, hv]
  have key_other : ∀ n, r.addressOrThrow d t = .error (.otherError n) →
      r.address d t = .error (.otherError n) := by
    intro n hv
    rw [haddr, addressOrThrow_prepare, hv]
  cases hA : r.addressOrThrow d t with
  | ok v =>
      rw [key_ok v hA]
      exact ⟨by simp, fun v2 => by simp, fun e2 => by simp⟩
  | error e =>
      cases e with
      | resolutionError c o =>
          rw [key_res c o hA]
          refine ⟨⟨fun _ => ⟨c, o, rfl⟩, fun _ => rfl⟩, fun v2 => by simp, fun e2 => ?_⟩
          constructor
          · intro hfalse
            simp at hfalse
          · rintro ⟨he, hne⟩
            injection he with he2
            subst he2
            exact absurd rfl (hne c o)
      | otherError n =>
          rw [key_other n hA]
          refine ⟨by simp, fun v2 => by simp, fun e2 => ?_⟩
          constructor
          · intro he
            injection he with he2
            subst he2
            refine ⟨rfl, ?_⟩
            intro c o hcontra
            simp at hcontra
          · rintro ⟨he, _⟩
            injection he with he2
            subst he2
            rfl

/-- Witness for C1: at a concrete API-mode instance whose backend echoes
the domain, `address` returns the same non-null value `addressOrThrow`
returns. -/
theorem address_null_iff_taxonomy_throw_witness :
    apiResolution.address rawTestDomain [] = .ok (some (prepareDomain rawTestDomain)) :=
  ((address_null_iff_taxonomy_throw apiResolution rawTestDomain []).2.1
    (prepareDomain rawTestDomain)).mpr rfl

/-- C2: backend selection is a pure first-match scan in fixed priority
order: in blockchain mode the configured backends are consulted in the
order ENS, ZNS, CNS (in API mode only the API backend), the selected
backend is the first whose `isSupportedDomain` accepts the canonicalized
domain, and when two configured backends both claim a domain the earlier
one is selected. -/
theorem getNamingMethod_first_match (r : Resolution) (d : JStr) :
    (r.getNamingMethod d =
      ((if r.blockchain then [r.ens, r.zns, r.cns] else [r.api]).filterMap id).find?
        (fun m => m.isSupportedDomain (prepareDomain d))) ∧
    (∀ m, r.getNamingMethod d = some m →
      m.isSupportedDomain (prepareDomain d) = true) ∧
    (∀ e, r.blockchain = true → r.ens = some e →
      e.isSupportedDomain (prepareDomain d) = true →
      r.getNamingMethod d = some e) ∧
    (∀ z, r.blockchain = true → r.zns = some z →
      z.isSupportedDomain (prepareDomain d) = true →
      (∀ e, r.ens = some e → e.isSupportedDomain (prepareDomain d) = false) →
      r.getNamingMethod d = some z) ∧
    (∀ c, r.blockchain = true → r.cns = some c →
      c.isSupportedDomain (prepareDomain d) = true →
      (∀ e, r.ens = some e → e.isSupportedDomain (prepareDomain d) = false) →
      (∀ z, r.zns = some z → z.isSupportedDomain (prepareDomain d) = false) →
      r.getNamingMethod d = some c) ∧
    (∀ a, r.blockchain = false → r.api = some a →
      r.getNamingMethod d =
        if a.isSupportedDomain (prepareDomain d) then some a else none) := by
  have hdef : r.getNamingMethod d =
      r.getResolutionMethods.find? (fun m => m.isSupportedDomain (prepareDomain d)) := rfl
  refine ⟨rfl, ?_, ?_, ?_, ?_, ?_⟩
  · intro m hm
    have h1 : r.getResolutionMethods.find?
        (fun m => m.isSupportedDomain (prepareDomain d)) = some m := hdef ▸ hm
    have h2 := List.find?_some h1
    exact h2
  · intro e hb he hsup
    rw [hdef, getResolutionMethods_blockchain r hb, he]
    exact find?_filterMap_cons_some hsup
  · intro z hb hz hzsup hens
    rw [hdef, getResolutionMethods_blockchain r hb, hz]
    cases hE : r.ens with
    | none =>
        rw [find?_filterMap_cons_none]
        exact find?_filterMap_cons_some hzsup
    | some e =>
        rw [find?_filterMap_cons_skip (hens e hE)]
        exact find?_filterMap_cons_some hzsup
  · intro c hb hc hcsup hens hzns
    rw [hdef, getResolutionMethods_blockchain r hb, hc]
    cases hE : r.ens with
    | none =>
        rw [find?_filterMap_cons_none]
        cases hZ : r.zns with
        | none =>
            rw [find?_filterMap_cons_none]
            exact find?_filterMap_cons_some hcsup
        | some z =>
            rw [find?_filterMap_cons_skip (hzns z hZ)]
            exact find?_filterMap_cons_some hcsup
    | some e =>
        rw [find?_filterMap_cons_skip (hens e hE)]
        cases hZ : r.zns with
        | none =>
            rw [find?_filterMap_cons_none]
            exact find?_filterMap_cons_some hcsup
        | some z =>
            rw [find?_filterMap_cons_skip (hzns z hZ)]
            exact find?_filterMap_cons_some hcsup
  · intro a hb ha
    rw [hdef, getResolutionMethods_api r hb, ha]
    by_cases hp : a.isSupportedDomain (prepareDomain d) = true
    · rw [if_pos hp]
      exact find?_filterMap_cons_some hp
    · have hpf : a.isSupportedDomain (prepareDomain d) = false :=
        Bool.not_eq_true _ ▸ hp
      rw [find?_filterMap_cons_skip hpf, if_neg hp]
      rfl

/-- Witness for C2: in a blockchain-mode instance where both the ENS-like
and the CNS-like backend claim every domain, the ENS-like backend is
selected. -/
theorem getNamingMethod_first_match_witness :
    testResolution.getNamingMethod rawTestDomain = some echoBackend :=
  (getNamingMethod_first_match testResolution rawTestDomain).2.2.1 echoBackend rfl rfl rfl

/-- C3: the source normalizer maps absent input and `true` to a descriptor
carrying the inherited provider, `false` to the disabled sentinel, a
string `s` to `{url: s}` with no provider and no network, an object to the
inherited provider merged with the object's present fields (the object
overriding), and any input of a type outside this union (e.g. a number) to
the fatal configuration error, raised at construction time before any
resolution call. -/
theorem normalizeSource_spec {α β : Type} (p : Option α) (s : JStr)
    (o : SourceDefinition α) (x : Int) :
    normalizeSource (JSValue.undef) p =
      .ok (some { url := none, provider := p, network := none }) ∧
    normalizeSource (JSValue.bool true) p =
      .ok (some { url := none, provider := p, network := none }) ∧
    normalizeSource (JSValue.bool false) p = .ok none ∧
    normalizeSource (JSValue.str s) p =
      .ok (some { url := some s, provider := none, network := none }) ∧
    normalizeSource (JSValue.obj o) p =
      .ok (some { url := o.url
                  provider := o.provider.elim p some
                  network := o.network }) ∧
    normalizeSource (JSValue.num x) p = .error ConfigError.unsupportedConfiguration ∧
    (∀ (mkEns mkZns mkCns : SourceDefinition α → NamingService)
       (mkApi : β → NamingService) (cfg : BlockchainConfig α) (apiCfg : β),
       (cfg.ens = JSValue.num x ∨ cfg.zns = JSValue.num x ∨ cfg.cns = JSValue.num x) →
       Resolution.construct mkEns mkZns mkCns mkApi ⟨.config cfg, apiCfg⟩ =
         .error ConfigError.unsupportedConfiguration) := by
  refine ⟨rfl, rfl, rfl, rfl, ?_, rfl, ?_⟩
  · cases hq : o.provider with
    | none => simp [normalizeSource, hq]
    | some q => simp [normalizeSource, hq]
  · intro mkEns mkZns mkCns mkApi cfg apiCfg h
    have hnum : ∀ (q : Option α),
        normalizeSource (JSValue.num x) q =
          .error ConfigError.unsupportedConfiguration := fun _ => rfl
    rcases h with h | h | h
    · rw [construct_config_eq, h, hnum, except_bind_error]
    · rcases normalizeSource_ok_or cfg.ens cfg.web3Provider with ⟨v, hv⟩ | herr
      · rw [construct_config_eq, hv, except_bind_ok, h]
        rw [show normalizeSource (JSValue.num x) (none : Option α) =
          .error ConfigError.unsupportedConfiguration from rfl, except_bind_error]
      · rw [construct_config_eq, herr, except_bind_error]
    · rcases normalizeSource_ok_or cfg.ens cfg.web3Provider with ⟨v, hv⟩ | herr
      · rcases normalizeSource_ok_or cfg.zns none with ⟨w, hw⟩ | herr2
        · rw [construct_config_eq, hv, except_bind_ok, hw, except_bind_ok, h, hnum,
            except_bind_error]
        · rw [construct_config_eq, hv, except_bind_ok, herr2, except_bind_error]
      · rw [construct_config_eq, herr, except_bind_error]

/-- Witness for C3: a numeric `ens` source aborts construction with the
fatal configuration error. -/
theorem normalizeSource_spec_witness :
    Resolution.construct (fun _ => echoBackend) (fun _ => echoBackend)
        (fun _ => cnsEchoBackend) (fun _ => apiEchoBackend)
        (⟨.config { ens := JSValue.num 7, zns := JSValue.undef, cns := JSValue.undef,
                    web3Provider := none },
          0⟩ : ResolutionOptions Nat Nat) =
      .error ConfigError.unsupportedConfiguration :=
  (normalizeSource_spec (none : Option Nat) [] ⟨none, none, none⟩ 7).2.2.2.2.2.2
    (fun _ => echoBackend) (fun _ => echoBackend) (fun _ => cnsEchoBackend)
    (fun _ => apiEchoBackend)
    { ens := JSValue.num 7, zns := JSValue.undef, cns := JSValue.undef,
      web3Provider := none }
    (0 : Nat) (Or.inl rfl)

theorem construct_truthy_ok {α β : Type}
    (mkEns mkZns mkCns : SourceDefinition α → NamingService)
    (mkApi : β → NamingService) (opts : ResolutionOptions α β) (r : Resolution)
    (hok : Resolution.construct mkEns mkZns mkCns mkApi opts = .ok r)
    (ht : opts.blockchain.truthy = true) :
    r.blockchain = true ∧ r.api = none := by
  obtain ⟨bopt, apiCfg⟩ := opts
  cases bopt with
  | bool b =>
      cases b with
      | false => exact Bool.noConfusion ht
      | true =>
          rw [construct_bool_true_eq] at hok
          injection hok with h
          subst h
          exact ⟨rfl, rfl⟩
  | config c =>
      rw [construct_config_eq] at hok
      rcases normalizeSource_ok_or c.ens c.web3Provider with ⟨v1, hv1⟩ | he1
      · rw [hv1, except_bind_ok] at hok
        rcases normalizeSource_ok_or c.zns none with ⟨v2, hv2⟩ | he2
        · rw [hv2, except_bind_ok] at hok
          rcases normalizeSource_ok_or c.cns c.web3Provider with ⟨v3, hv3⟩ | he3
          · rw [hv3, except_bind_ok] at hok
            injection hok with h
            subst h
            exact ⟨rfl, rfl⟩
          · rw [he3, except_bind_error] at hok
            exact Except.noConfusion hok
        · rw [he2, except_bind_error] at hok
          exact Except.noConfusion hok
      · rw [he1, except_bind_error] at hok
        exact Except.noConfusion hok

/-- C5: the two construction modes are mutually exclusive: a truthy
`blockchain` option yields an instance with up to three blockchain
backends and no API backend; `blockchain: false` yields an instance
holding exactly one API backend, and its `isSupportedDomain` (like every
backend-list dispatch) consults only that API backend, never an
ENS/ZNS/CNS backend. -/
theorem construct_mode_exclusive {α β : Type}
    (mkEns mkZns mkCns : SourceDefinition α → NamingService)
    (mkApi : β → NamingService) (opts : ResolutionOptions α β) :
    (∀ r, Resolution.construct mkEns mkZns mkCns mkApi opts = .ok r →
      opts.blockchain.truthy = true → r.blockchain = true ∧ r.api = none) ∧
    (opts.blockchain.truthy = false →
      Resolution.construct mkEns mkZns mkCns mkApi opts =
        .ok { blockchain := false, ens := none, zns := none, cns := none,
              api := some (mkApi opts.api) }) ∧
    (∀ r, Resolution.construct mkEns mkZns mkCns mkApi opts = .ok r →
      r.blockchain = false →
      r.ens = none ∧ r.zns = none ∧ r.cns = none ∧
      r.api = some (mkApi opts.api) ∧
      r.getResolutionMethods = [mkApi opts.api] ∧
      (∀ d, r.isSupportedDomain d =
        (mkApi opts.api).isSupportedDomain (prepareDomain d))) := by
  refine ⟨fun r hok ht => construct_truthy_ok mkEns mkZns mkCns mkApi opts r hok ht,
    ?_, ?_⟩
  · intro hf
    obtain ⟨bopt, apiCfg⟩ := opts
    cases bopt with
    | bool b =>
        cases b with
        | false => exact construct_bool_false_eq mkEns mkZns mkCns mkApi apiCfg
        | true => exact Bool.noConfusion hf
    | config c => exact Bool.noConfusion hf
  · intro r hok hb
    by_cases ht : opts.blockchain.truthy = true
    · have := (construct_truthy_ok mkEns mkZns mkCns mkApi opts r hok ht).1
      rw [this] at hb
      exact Bool.noConfusion hb
    · have hf : opts.blockchain.truthy = false := by
        cases hx : opts.blockchain.truthy with
        | false => rfl
        | true => exact absurd hx ht
      obtain ⟨bopt, apiCfg⟩ := opts
      cases bopt with
      | bool b =>
          cases b with
          | true => exact Bool.noConfusion hf
          | false =>
              rw [construct_bool_false_eq] at hok
              injection hok with h
              subst h
              refine ⟨rfl, rfl, rfl, rfl, rfl, ?_⟩
              intro d
              by_cases hp : (mkApi apiCfg).isSupportedDomain (prepareDomain d) = true
              · have h1 : Resolution.getNamingMethod
                    { blockchain := false, ens := none, zns := none, cns := none,
                      api := some (mkApi apiCfg) } d = some (mkApi apiCfg) := by
                  have hdef : Resolution.getNamingMethod
                      { blockchain := false, ens := none, zns := none, cns := none,
                        api := some (mkApi apiCfg) } d =
                      (([some (mkApi apiCfg)] : List (Option NamingService)).filterMap
                        id).find? (fun m => m.isSupportedDomain (prepareDomain d)) := rfl
                  rw [hdef]
                  exact find?_filterMap_cons_some hp
                rw [isSupportedDomain_eq, h1, hp]
                rfl
              · have hpf : (mkApi apiCfg).isSupportedDomain (prepareDomain d) = false :=
                  Bool.not_eq_true _ ▸ hp
                have h1 : Resolution.getNamingMethod
                    { blockchain := false, ens := none, zns := none, cns := none,
                      api := some (mkApi apiCfg) } d = none := by
                  have hdef : Resolution.getNamingMethod
                      { blockchain := false, ens := none, zns := none, cns := none,
                        api := some (mkApi apiCfg) } d =
                      (([some (mkApi apiCfg)] : List (Option NamingService)).filterMap
                        id).find? (fun m => m.isSupportedDomain (prepareDomain d)) := rfl
                  rw [hdef, find?_filterMap_cons_skip hpf]
                  rfl
                rw [isSupportedDomain_eq, h1, hpf]
                rfl
      | config c => exact Bool.noConfusion hf

/-- Witness for C5 at a concrete API-mode construction. -/
theorem construct_mode_exclusive_witness :
    Resolution.construct (fun _ => echoBackend) (fun _ => echoBackend)
        (fun _ => cnsEchoBackend) (fun _ => apiEchoBackend)
        (⟨BlockchainOption.bool false, 0⟩ : ResolutionOptions Nat Nat) =
      .ok { blockchain := false, ens := none, zns := none, cns := none,
            api := some apiEchoBackend } :=
  (construct_mode_exclusive (fun _ => echoBackend) (fun _ => echoBackend)
    (fun _ => cnsEchoBackend) (fun _ => apiEchoBackend)
    (⟨BlockchainOption.bool false, 0⟩ : ResolutionOptions Nat Nat)).2.1 rfl

/-- C6: `reverse` selects its backend by identity tag (the ENS backend),
bypassing domain-based selection entirely, and throws the typed
`NamingServiceDown` error whenever the ENS backend is not among the
configured backends — including every API-mode instance (whose single
backend carries the API identity tag, not ENS). -/
theorem reverse_targets_ens_by_identity (r : Resolution) (a t : JStr) :
    (r.reverse a t =
      (r.findNamingService NamingServiceName.ENS).bind (fun s => s.reverse a t)) ∧
    ((∀ m ∈ r.getResolutionMethods, m.name ≠ NamingServiceName.ENS) →
      r.reverse a t = .error (.resolutionError .NamingServiceDown
        { domain := none, method := some NamingServiceName.ENS })) ∧
    (∀ ap, r.blockchain = false → r.api = some ap →
      ap.name ≠ NamingServiceName.ENS →
      r.reverse a t = .error (.resolutionError .NamingServiceDown
        { domain := none, method := some NamingServiceName.ENS })) := by
  have h0 : r.reverse a t =
      (r.findNamingService NamingServiceName.ENS).bind (fun s => s.reverse a t) := rfl
  refine ⟨h0, ?_, ?_⟩
  · intro hall
    have h1 : r.getResolutionMethods.find?
        (fun m => m.name == NamingServiceName.ENS) = none := by
      rw [List.find?_eq_none]
      intro m hm hbeq
      exact hall m hm (of_decide_eq_true hbeq)
    have h2 : r.findNamingService NamingServiceName.ENS =
        .error (.resolutionError .NamingServiceDown
          { domain := none, method := some NamingServiceName.ENS }) := by
      unfold Resolution.findNamingService
      rw [h1]
    rw [h0, h2, except_bind_error]
  · intro ap hb ha hne
    have h1 : r.getResolutionMethods.find?
        (fun m => m.name == NamingServiceName.ENS) = none := by
      rw [getResolutionMethods_api r hb, ha]
      have hpred : (ap.name == NamingServiceName.ENS) = false := decide_eq_false hne
      simp [List.filterMap_cons, List.find?_cons, hpred]
    have h2 : r.findNamingService NamingServiceName.ENS =
        .error (.resolutionError .NamingServiceDown
          { domain := none, method := some NamingServiceName.ENS }) := by
      unfold Resolution.findNamingService
      rw [h1]
    rw [h0, h2, except_bind_error]

/-- Witness for C6: an API-mode instance has no ENS backend, so `reverse`
throws `NamingServiceDown`. -/
theorem reverse_targets_ens_by_identity_witness :
    apiResolution.reverse [] [] = .error (.resolutionError .NamingServiceDown
      { domain := none, method := some NamingServiceName.ENS }) :=
  (reverse_targets_ens_by_identity apiResolution [] []).2.2 apiEchoBackend rfl rfl
    (by decide)

theorem resolve_eq_none (r : Resolution) (d : JStr)
    (hm : r.getNamingMethod d = none) :
    r.resolve d = .error (.resolutionError .UnsupportedDomain
      { domain := some (prepareDomain d), method := none }) := by
  rw [resolve_eq, hm]

theorem resolve_eq_some (r : Resolution) (d : JStr) (m : NamingService)
    (hm : r.getNamingMethod d = some m) :
    r.resolve d = (m.resolve (prepareDomain d)).bind (fun result =>
      .ok (match result with
        | some value => value
        | none => UnclaimedDomainResponse)) := by
  rw [resolve_eq, hm]

/-- C7: for every domain matched to a backend, `resolve` returns the
backend's record bundle when the backend produces one and the well-known
"domain unclaimed" sentinel (not an error) when the backend returns
`null`; when no configured backend matches, `resolve` throws the typed
`UnsupportedDomain` error. -/
theorem resolve_bundle_or_unclaimed (r : Resolution) (d : JStr) :
    (∀ m b, r.getNamingMethod d = some m →
      m.resolve (prepareDomain d) = .ok (some b) → r.resolve d = .ok b) ∧
    (∀ m, r.getNamingMethod d = some m →
      m.resolve (prepareDomain d) = .ok none →
      r.resolve d = .ok UnclaimedDomainResponse) ∧
    (∀ m e, r.getNamingMethod d = some m →
      m.resolve (prepareDomain d) = .error e → r.resolve d = .error e) ∧
    (r.getNamingMethod d = none →
      r.resolve d = .error (.resolutionError .UnsupportedDomain
        { domain := some (prepareDomain d), method := none })) := by
  refine ⟨?_, ?_, ?_, fun hm => resolve_eq_none r d hm⟩
  · intro m b hm hres
    rw [resolve_eq_some r d m hm, hres, except_bind_ok]
  · intro m hm hres
    rw [resolve_eq_some r d m hm, hres, except_bind_ok]
  · intro m e hm hres
    rw [resolve_eq_some r d m hm, hres, except_bind_error]

/-- Witness for C7: the echo backend reports no record bundle, so
`resolve` returns the unclaimed sentinel. -/
theorem resolve_bundle_or_unclaimed_witness :
    testResolution.resolve rawTestDomain = .ok UnclaimedDomainResponse :=
  (resolve_bundle_or_unclaimed testResolution rawTestDomain).2.1 echoBackend rfl rfl

theorem isValidHash_eq_some (r : Resolution) (d hash : JStr) (m : NamingService)
    (hm : r.getNamingMethod d = some m) :
    r.isValidHash d hash = .ok (m.namehash (prepareDomain d) == hash) := by
  rw [isValidHash_eq, namehash_eq, hm]
  rfl

/-- C8: for every domain supported by a configured backend and every
string, `isValidHash(d, h)` is true exactly when `namehash(d)` equals `h`
by exact string equality; in particular `isValidHash(d, namehash(d))` is
true and `isValidHash(d, h)` is false for any differing `h`. -/
theorem isValidHash_iff_namehash (r : Resolution) (d h : JStr) (m : NamingService)
    (hm : r.getNamingMethod d = some m) :
    r.namehash d = .ok (m.namehash (prepareDomain d)) ∧
    r.isValidHash d h = .ok (m.namehash (prepareDomain d) == h) ∧
    (r.isValidHash d h = .ok true ↔ r.namehash d = .ok h) ∧
    r.isValidHash d (m.namehash (prepareDomain d)) = .ok true ∧
    (h ≠ m.namehash (prepareDomain d) → r.isValidHash d h = .ok false) := by
  have hn : r.namehash d = .ok (m.namehash (prepareDomain d)) := by
    rw [namehash_eq, hm]
  refine ⟨hn, isValidHash_eq_some r d h m hm, ?_, ?_, ?_⟩
  · rw [isValidHash_eq_some r d h m hm, hn]
    constructor
    · intro he
      injection he with he2
      have h3 : m.namehash (prepareDomain d) = h := eq_of_beq he2
      rw [h3]
    · intro he
      injection he with he2
      rw [he2]
      simp
  · rw [isValidHash_eq_some r d (m.namehash (prepareDomain d)) m hm]
    simp
  · intro hne
    rw [isValidHash_eq_some r d h m hm]
    have h3 : (m.namehash (prepareDomain d) == h) = false :=
      beq_eq_false_iff_ne.mpr (fun hh => hne hh.symm)
    rw [h3]

/-- Witness for C8: the hash computed by `namehash` validates against its
own domain. -/
theorem isValidHash_iff_namehash_witness :
    testResolution.isValidHash rawTestDomain
      (echoBackend.namehash (prepareDomain rawTestDomain)) = .ok true :=
  (isValidHash_iff_namehash testResolution rawTestDomain [] echoBackend rfl).2.2.2.1

/-- C10: passing `null` as a per-backend source takes the normalizer's
object branch (`typeof null` is `'object'` and spreading `null`
contributes no fields), so `normalizeSource(null, p)` returns
`{provider: p}` and the backend is constructed enabled with defaults —
not disabled, and not the fatal configuration error reserved for inputs
outside the documented union. -/
theorem normalizeSource_null_enabled {α β : Type} (p w : Option α)
    (mkEns mkZns mkCns : SourceDefinition α → NamingService)
    (mkApi : β → NamingService) (apiCfg : β) :
    normalizeSource (JSValue.null) p =
      .ok (some { url := none, provider := p, network := none }) ∧
    Resolution.construct mkEns mkZns mkCns mkApi
        ⟨.config { ens := JSValue.null, zns := JSValue.undef, cns := JSValue.undef,
                   web3Provider := w }, apiCfg⟩ =
      .ok { blockchain := true
            ens := some (mkEns { url := none, provider := w, network := none })
            zns := some (mkZns { url := none, provider := none, network := none })
            cns := some (mkCns { url := none, provider := w, network := none })
            api := none } :=
  ⟨rfl, rfl⟩

/-- C4 (evaluation at the failing input): `ipfsRedirect` does not
canonicalize its argument before forwarding. With the echo backend, which
returns the domain it was forwarded, `ipfsRedirect ' BRAD.ZIL '` returns
the raw string unchanged while `ipfsRedirect 'brad.zil'` returns
`'brad.zil'` — so the two calls differ, contradicting the claim that every
public domain-taking operation behaves identically on raw and
canonicalized input; the equivalent `record` call (its documented
replacement path) does forward the canonicalized domain. -/
theorem ipfsRedirect_forwards_raw_domain :
    testResolution.ipfsRedirect rawTestDomain = .ok rawTestDomain ∧
    testResolution.ipfsRedirect (prepareDomain rawTestDomain) =
      .ok (prepareDomain rawTestDomain) ∧
    prepareDomain rawTestDomain ≠ rawTestDomain ∧
    testResolution.record rawTestDomain ipfsRedirectKey =
      .ok (prepareDomain rawTestDomain) :=
  ⟨rfl, rfl, by decide, rfl⟩
